import Mathlib

/-
Verification development for the Webhook-Processor repository.

This file gives a shallow embedding of the core of the webhook delivery
engine: the webhook queue entity (internal/domain/entities/webhook_queue.go
and the GORM model WebhookQueueModel), the status enum
(internal/domain/enums), the queue repository operations
(webhookQueueRepositoryImpl: Create, Update/mergeWebhookIntoModel,
GetNextWebhookForProcessing, UpdateRetryAttempt, MarkCompleted, MarkFailed),
the attempt processor (WebhookProcessor.ProcessWebhook,
isSuccessfulResponse, calculateNextRetryTime, ResetWebhookToPending) and
the worker pool (WorkerPool.Start / WorkerPool.Stop).

Conventions of the embedding:
- Go `time.Time` is modelled as an `Int` of UTC nanoseconds; the Go zero
  time (`IsZero`) corresponds to `0`.
- Go `time.Duration` is an `Int` of nanoseconds.
- `uuid.UUID` is modelled as a `Nat`, with `0` playing the role of
  `uuid.Nil`.
- The uniform random jitter sample drawn inside `calculateNextRetryTime`
  (`time.Duration(rand.Float64()*jitterRange*2 - jitterRange)`) is passed
  in as an explicit integer parameter `jitter`; the sampled value always
  lies in `[-jitterRange, jitterRange]`, which theorems take as a
  hypothesis where they need it.
- Database rows live in a `List WebhookQueue`; single-row SQL UPDATEs
  become updates of every row whose `id` matches (primary keys are unique
  in the real table).
-/

/-- Go `time.Time`, as UTC nanoseconds; `0` is the zero time. -/
abbrev WTime := Int

/-- Enum value `enums.WebhookStatusPending` = "PENDING". -/
def webhookStatusPending : String := "PENDING"

/-- Enum value `enums.WebhookStatusProcessing` = "PROCESSING". -/
def webhookStatusProcessing : String := "PROCESSING"

/-- Enum value `enums.WebhookStatusCompleted` = "COMPLETED". -/
def webhookStatusCompleted : String := "COMPLETED"

/-- Enum value `enums.WebhookStatusFailed` = "FAILED". -/
def webhookStatusFailed : String := "FAILED"

/-- Constant `enums.MaxRetryAttempts = 6`. -/
def maxRetryAttempts : Int := 6

/-- Method `enums.WebhookStatus.IsCompleted`: true exactly for "COMPLETED". -/
def isCompletedStatus (s : String) : Bool := s == webhookStatusCompleted

/-- One tier-k block of the six nullable per-attempt history columns of the
`webhook_queue` row (`retry_k_started_at` .. `retry_k_error`). -/
structure RetrySlot where
  startedAt : Option WTime
  completedAt : Option WTime
  durationMs : Option Int
  httpStatus : Option Int
  responseBody : Option String
  error : Option String
deriving DecidableEq, Repr

/-- The all-NULL retry slot of a freshly inserted row. -/
def RetrySlot.empty : RetrySlot :=
  { startedAt := none, completedAt := none, durationMs := none,
    httpStatus := none, responseBody := none, error := none }

/-- The webhook queue row: entity `entities.WebhookQueue`, which maps
field-for-field onto the GORM model `models.WebhookQueueModel`
(entityToModel / modelToEntity are identities on this representation). -/
structure WebhookQueue where
  id : Int
  queueID : Nat
  eventType : String
  eventID : String
  configID : Int
  webhookURL : String
  status : String
  retryCount : Int
  nextRetryAt : WTime
  slot0 : RetrySlot
  slot1 : RetrySlot
  slot2 : RetrySlot
  slot3 : RetrySlot
  slot4 : RetrySlot
  slot5 : RetrySlot
  slot6 : RetrySlot
  lastError : String
  lastHTTPStatus : Int
  createdAt : WTime
  updatedAt : WTime
  processingStartedAt : Option WTime
  completedAt : Option WTime
  deletedAt : Option WTime
deriving DecidableEq, Repr

/-- Read the tier-k history slot of a row (helper for statements; the Go
struct has the seven blocks as flat fields). -/
def WebhookQueue.getSlot (w : WebhookQueue) (k : Int) : RetrySlot :=
  if k = 0 then w.slot0
  else if k = 1 then w.slot1
  else if k = 2 then w.slot2
  else if k = 3 then w.slot3
  else if k = 4 then w.slot4
  else if k = 5 then w.slot5
  else if k = 6 then w.slot6
  else RetrySlot.empty

/-- Method `entities.WebhookQueue.CanRetry`:
`w.RetryCount < enums.MaxRetryAttempts && !w.Status.IsCompleted()`. -/
def WebhookQueue.canRetry (w : WebhookQueue) : Bool :=
  decide (w.retryCount < maxRetryAttempts) && !(isCompletedStatus w.status)

/-- Method `WebhookProcessor.isSuccessfulResponse`:
`statusCode >= 200 && statusCode < 300`. -/
def isSuccessfulResponse (statusCode : Int) : Bool :=
  decide (200 ≤ statusCode) && decide (statusCode < 300)

/-- Go `time.Minute` in nanoseconds. -/
def durationMinute : Int := 60 * 1000000000

/-- Go `time.Hour` in nanoseconds. -/
def durationHour : Int := 60 * durationMinute

/-- The base-delay switch of `WebhookProcessor.calculateNextRetryTime`
(1, 5, 10, 30, 60, 120 minutes for retryCount 0..5, else 4 hours). -/
def baseDelay (retryCount : Int) : Int :=
  if retryCount = 0 then 1 * durationMinute
  else if retryCount = 1 then 5 * durationMinute
  else if retryCount = 2 then 10 * durationMinute
  else if retryCount = 3 then 30 * durationMinute
  else if retryCount = 4 then 60 * durationMinute
  else if retryCount = 5 then 120 * durationMinute
  else 4 * durationHour

/-- `jitterRange := float64(baseDelay) * 0.25` of
`calculateNextRetryTime`; every base delay is a multiple of four
nanoseconds, so the value is exact. -/
def jitterRange (retryCount : Int) : Int := baseDelay retryCount / 4

/-- The delay computed by `calculateNextRetryTime` before it is added to
`time.Now()`: `finalDelay := baseDelay + jitter`, clamped from below to
one minute. `jitter` is the sampled
`time.Duration(rand.Float64()*jitterRange*2 - jitterRange)`. -/
def finalDelay (retryCount : Int) (jitter : Int) : Int :=
  let fd := baseDelay retryCount + jitter
  if fd < durationMinute then durationMinute else fd

/-- Method `WebhookProcessor.calculateNextRetryTime`, with the random
jitter sample and the current instant passed explicitly. -/
def calculateNextRetryTime (retryCount : Int) (jitter : Int) (now : WTime) : WTime :=
  now + finalDelay retryCount jitter

/-- Partial model of Go `net/http.StatusText` (reason phrases for the
status codes exercised by the repository's tests; unknown codes map to ""
exactly as in Go). No claim depends on its output: it only feeds the
`"HTTP %d: %s"` attempt error message, whose non-emptiness is carried by
the `"HTTP "` prefix. -/
def statusText (code : Int) : String :=
  if code = 200 then "OK"
  else if code = 201 then "Created"
  else if code = 400 then "Bad Request"
  else if code = 404 then "Not Found"
  else if code = 500 then "Internal Server Error"
  else if code = 503 then "Service Unavailable"
  else ""

/-- The tier-k part of the `updates` map built by
`webhookQueueRepositoryImpl.UpdateRetryAttempt`: `retry_k_started_at`,
`retry_k_duration_ms`, `retry_k_http_status`, `retry_k_response_body` are
always written; `retry_k_completed_at` only when `completedAt != nil`;
`retry_k_error` only when `errorMsg != ""`. -/
def writeSlot (s : RetrySlot) (startedAt : WTime) (completedAt : Option WTime)
    (durationMs httpStatus : Int) (responseBody errorMsg : String) : RetrySlot :=
  { startedAt := some startedAt,
    completedAt := match completedAt with | some c => some c | none => s.completedAt,
    durationMs := some durationMs,
    httpStatus := some httpStatus,
    responseBody := some responseBody,
    error := if errorMsg ≠ "" then some errorMsg else s.error }

/-- Method `webhookQueueRepositoryImpl.UpdateRetryAttempt`, as its effect
on the addressed row: always writes `updated_at` and `last_http_status`,
writes `last_error` only when `errorMsg` is non-empty, and fills the
history slot selected by the `switch retryLevel` (cases 0..6; any other
level updates only the summary fields). -/
def updateRetryAttempt (w : WebhookQueue) (retryLevel : Int) (startedAt : WTime)
    (completedAt : Option WTime) (durationMs httpStatus : Int)
    (responseBody errorMsg : String) (now : WTime) : WebhookQueue :=
  let base := { w with updatedAt := now, lastHTTPStatus := httpStatus,
                       lastError := if errorMsg ≠ "" then errorMsg else w.lastError }
  if retryLevel = 0 then
    { base with slot0 := writeSlot w.slot0 startedAt completedAt durationMs httpStatus responseBody errorMsg }
  else if retryLevel = 1 then
    { base with slot1 := writeSlot w.slot1 startedAt completedAt durationMs httpStatus responseBody errorMsg }
  else if retryLevel = 2 then
    { base with slot2 := writeSlot w.slot2 startedAt completedAt durationMs httpStatus responseBody errorMsg }
  else if retryLevel = 3 then
    { base with slot3 := writeSlot w.slot3 startedAt completedAt durationMs httpStatus responseBody errorMsg }
  else if retryLevel = 4 then
    { base with slot4 := writeSlot w.slot4 startedAt completedAt durationMs httpStatus responseBody errorMsg }
  else if retryLevel = 5 then
    { base with slot5 := writeSlot w.slot5 startedAt completedAt durationMs httpStatus responseBody errorMsg }
  else if retryLevel = 6 then
    { base with slot6 := writeSlot w.slot6 startedAt completedAt durationMs httpStatus responseBody errorMsg }
  else base

/-- Method `webhookQueueRepositoryImpl.MarkCompleted`, as its effect on the
addressed row: sets `status`, `processing_started_at`, `completed_at`,
`updated_at` and nothing else. -/
def markCompletedRow (w : WebhookQueue) (processingStartedAt now : WTime) : WebhookQueue :=
  { w with status := webhookStatusCompleted,
           processingStartedAt := some processingStartedAt,
           completedAt := some now,
           updatedAt := now }

/-- `MarkCompleted` on the table: the single-row UPDATE addressed by
`WHERE id = ?`. -/
def markCompleted (db : List WebhookQueue) (webhookID : Int)
    (processingStartedAt now : WTime) : List WebhookQueue :=
  db.map fun r => if r.id = webhookID then markCompletedRow r processingStartedAt now else r

/-- Method `webhookQueueRepositoryImpl.MarkFailed`, as its effect on the
addressed row: sets `status`, `last_error`, `updated_at`. -/
def markFailedRow (w : WebhookQueue) (errorMsg : String) (now : WTime) : WebhookQueue :=
  { w with status := webhookStatusFailed, lastError := errorMsg, updatedAt := now }

/-- Method `webhookQueueRepositoryImpl.mergeWebhookIntoModel`: the
merge-update underlying repository `Update`. Each persisted field is
overwritten only when the update entity's field is non-zero
(non-empty string, non-zero number, non-nil UUID, non-zero timestamp,
non-nil pointer) — except that `retry_count` and `next_retry_at` are
written together whenever either of the two is non-zero. The row id,
`created_at` and the tier history columns are never touched. The Go method
is a sequence of independent per-field guarded assignments, none of which
reads a field written by an earlier one, so it is rendered as one parallel
record update. -/
def mergeWebhookIntoModel (model upd : WebhookQueue) : WebhookQueue :=
  { model with
    queueID := if upd.queueID ≠ 0 then upd.queueID else model.queueID,
    eventType := if upd.eventType ≠ "" then upd.eventType else model.eventType,
    eventID := if upd.eventID ≠ "" then upd.eventID else model.eventID,
    configID := if upd.configID ≠ 0 then upd.configID else model.configID,
    webhookURL := if upd.webhookURL ≠ "" then upd.webhookURL else model.webhookURL,
    status := if upd.status ≠ "" then upd.status else model.status,
    retryCount := if upd.retryCount ≠ 0 ∨ upd.nextRetryAt ≠ 0 then upd.retryCount
                  else model.retryCount,
    nextRetryAt := if upd.retryCount ≠ 0 ∨ upd.nextRetryAt ≠ 0 then upd.nextRetryAt
                   else model.nextRetryAt,
    lastError := if upd.lastError ≠ "" then upd.lastError else model.lastError,
    lastHTTPStatus := if upd.lastHTTPStatus ≠ 0 then upd.lastHTTPStatus
                      else model.lastHTTPStatus,
    updatedAt := if upd.updatedAt ≠ 0 then upd.updatedAt else model.updatedAt,
    processingStartedAt := match upd.processingStartedAt with
                           | some t => some t
                           | none => model.processingStartedAt,
    completedAt := match upd.completedAt with
                   | some t => some t
                   | none => model.completedAt,
    deletedAt := match upd.deletedAt with
                 | some t => some t
                 | none => model.deletedAt }

/-- The dispatcher's reply `services.WebhookResponse`, restricted to the
fields the processor reads (`StatusCode`, `Body`). -/
structure WebhookResponse where
  statusCode : Int
  body : String
deriving DecidableEq, Repr

/-- The attempt error-message derivation inside
`WebhookProcessor.ProcessWebhook`: the transport error's message when
present; else the synthetic `"HTTP <code>: <reason>"` when the response
status is not 2xx; else empty. -/
def deriveErrorMsg (err : Option String) (response : Option WebhookResponse) : String :=
  match err with
  | some m => m
  | none =>
    match response with
    | some r =>
      if isSuccessfulResponse r.statusCode then ""
      else "HTTP " ++ toString r.statusCode ++ ": " ++ statusText r.statusCode
    | none => ""

/-- Method `WebhookProcessor.ProcessWebhook`, as its effect on the
persisted row, given the dispatch outcome. `w` is the claimed row (the
in-memory entity handed to the processor coincides with the persisted row
at entry, because `GetNextWebhookForProcessing` returns the row it just
updated). `err`/`response` are `SendWebhook`'s results; `attemptStart`,
`attemptEnd` and `now` are the successive `time.Now()` readings; `jitter`
is the random sample drawn inside `calculateNextRetryTime`. The repository
calls are assumed to succeed (their error paths only log or bubble the
error without further mutation). -/
def processWebhook (w : WebhookQueue) (err : Option String)
    (response : Option WebhookResponse) (attemptStart attemptEnd now : WTime)
    (jitter : Int) : WebhookQueue :=
  let durationMs := Int.tdiv (attemptEnd - attemptStart) 1000000
  let httpStatus := match response with | some r => r.statusCode | none => 0
  let responseBody := match response with | some r => r.body | none => ""
  let errorMsg := deriveErrorMsg err response
  let dbRow := updateRetryAttempt w w.retryCount attemptStart (some attemptEnd)
                 durationMs httpStatus responseBody errorMsg now
  let wMem := { w with lastHTTPStatus := httpStatus,
                       lastError := if errorMsg ≠ "" then errorMsg else w.lastError }
  let success := err.isNone &&
    (match response with | some r => isSuccessfulResponse r.statusCode | none => false)
  if success then
    markCompletedRow dbRow attemptStart now
  else if wMem.canRetry then
    let nextRetryAt := calculateNextRetryTime wMem.retryCount jitter now
    let upd := { wMem with retryCount := wMem.retryCount + 1,
                           nextRetryAt := nextRetryAt,
                           status := webhookStatusPending,
                           updatedAt := now }
    mergeWebhookIntoModel dbRow upd
  else
    let finalErrorMsg := match err with
      | some m => "max retries exceeded: " ++ m
      | none =>
        match response with
        | some r => "max retries exceeded: HTTP " ++ toString r.statusCode
        | none => "max retries exceeded"
    markFailedRow dbRow finalErrorMsg now

/-- Method `WebhookProcessor.ResetWebhookToPending`, as its effect on the
persisted row: sets `status = PENDING` and `updated_at = now` on the
in-memory entity and persists through the repository `Update` merge. -/
def resetWebhookToPending (w : WebhookQueue) (now : WTime) : WebhookQueue :=
  mergeWebhookIntoModel w { w with status := webhookStatusPending, updatedAt := now }

/-- The WHERE clause of `GetNextWebhookForProcessing`:
`status = 'PENDING' AND retry_count = ? AND next_retry_at <= ?`. -/
def isEligible (tier : Int) (now : WTime) (w : WebhookQueue) : Bool :=
  w.status == webhookStatusPending && decide (w.retryCount = tier)
    && decide (w.nextRetryAt ≤ now)

/-- The `ORDER BY next_retry_at ASC ... LIMIT 1` selection of
`GetNextWebhookForProcessing`: the first row, in table order, among the
eligible rows of minimal `next_retry_at` (ties resolve to the earlier
row, one arbitrary resolution of the unordered SQL tie). -/
def minEligible (tier : Int) (now : WTime) : List WebhookQueue → Option WebhookQueue
  | [] => none
  | w :: ws =>
    match minEligible tier now ws with
    | none => if isEligible tier now w then some w else none
    | some m =>
      if isEligible tier now w && decide (w.nextRetryAt ≤ m.nextRetryAt) then some w
      else some m

/-- Method `webhookQueueRepositoryImpl.GetNextWebhookForProcessing`: in one
transaction, select the eligible row of minimal `next_retry_at` under an
exclusive skip-locked row lock, set its `status` to PROCESSING and
`updated_at` to now, commit, and return it; with no eligible row, commit
and return `(nil, nil)` leaving the table untouched. -/
def getNextWebhookForProcessing (db : List WebhookQueue) (tier : Int) (now : WTime) :
    Option WebhookQueue × List WebhookQueue :=
  match minEligible tier now db with
  | none => (none, db)
  | some m =>
    let claimed := { m with status := webhookStatusProcessing, updatedAt := now }
    (some claimed, db.map fun r => if r.id = m.id then claimed else r)

/-- Method `webhookQueueRepositoryImpl.Create`: persists the entity; the
database assigns the auto-increment primary key (`newID`) and the
`BeforeCreate` hook fills `queue_id` with a fresh UUID when it is nil
(`newQueueID`); both are written back into the entity, which is what the
caller observes. Returns the written-back entity and the new table. -/
def create (db : List WebhookQueue) (webhook : WebhookQueue) (newID : Int)
    (newQueueID : Nat) : WebhookQueue × List WebhookQueue :=
  let model := { webhook with
                 id := newID,
                 queueID := if webhook.queueID = 0 then newQueueID else webhook.queueID }
  (model, db ++ [model])

/-- The operations a row undergoes after insertion, each as invoked by the
processor and workers: the claim update of `GetNextWebhookForProcessing`,
a standalone `UpdateRetryAttempt`, a full `ProcessWebhook` pass (which
performs the record, then reschedules via the repository `Update` merge,
marks completed, or marks failed), a direct `MarkCompleted` or
`MarkFailed`, and the worker's `ResetWebhookToPending` recovery (the other
call site of repository `Update`). -/
inductive QueueOp where
  | claim (now : WTime)
  | recordAttempt (retryLevel : Int) (startedAt : WTime) (completedAt : Option WTime)
      (durationMs httpStatus : Int) (responseBody errorMsg : String) (now : WTime)
  | processAttempt (err : Option String) (response : Option WebhookResponse)
      (attemptStart attemptEnd now : WTime) (jitter : Int)
  | complete (processingStartedAt now : WTime)
  | fail (errorMsg : String) (now : WTime)
  | reset (now : WTime)

/-- Apply one queue operation to a row. -/
def applyOp (w : WebhookQueue) : QueueOp → WebhookQueue
  | .claim now => { w with status := webhookStatusProcessing, updatedAt := now }
  | .recordAttempt lvl s c d h b e now => updateRetryAttempt w lvl s c d h b e now
  | .processAttempt err resp s e now j => processWebhook w err resp s e now j
  | .complete p now => markCompletedRow w p now
  | .fail e now => markFailedRow w e now
  | .reset now => resetWebhookToPending w now

/-- Apply a sequence of queue operations to a row. -/
def applyOps (w : WebhookQueue) (ops : List QueueOp) : WebhookQueue :=
  ops.foldl applyOp w

/-- State of `workers.WorkerPool`: the `running` guard and the `workers`
slice (each appended worker carries its started flag). The worker goroutine
internals are out of scope; `WebhookWorker.Start` is kept abstract as a
fallible call, so pool `Start` takes the per-worker outcome list. -/
structure WorkerPool where
  running : Bool
  workers : List Bool
deriving DecidableEq, Repr

/-- Pool as built by `NewWorkerPool`: not running, empty worker slice. -/
def newWorkerPool : WorkerPool := { running := false, workers := [] }

/-- The roster loop of `WorkerPool.Start`: create and start each worker in
declaration order, appending it to the slice on success; on the first
failed worker start, `stopWorkers()` stops every already-started worker
and clears the slice, and the error is returned. When the whole roster
starts, `running` is set. -/
def startLoop : WorkerPool → List Bool → Option String × WorkerPool
  | p, [] => (none, { p with running := true })
  | p, ok :: rest =>
    if ok then startLoop { p with workers := p.workers ++ [true] } rest
    else (some "failed to start worker", { p with workers := [] })

/-- Method `WorkerPool.Start`: guarded by `running` (a second start returns
an error before touching any state), then the roster loop.
`startResults` gives each worker start's outcome in roster order. -/
def startPool (p : WorkerPool) (startResults : List Bool) : Option String × WorkerPool :=
  if p.running then (some "worker pool is already running", p)
  else startLoop p startResults

/-- Method `WorkerPool.Stop`: errors when the pool is not running,
otherwise stops all workers, clears the slice and resets `running`. -/
def stopPool (p : WorkerPool) : Option String × WorkerPool :=
  if p.running then (none, { p with running := false, workers := [] })
  else (some "worker pool is not running", p)

/-- A row with every field zero-valued (the zero `entities.WebhookQueue`
struct). -/
def emptyRow : WebhookQueue :=
  { id := 0, queueID := 0, eventType := "", eventID := "", configID := 0,
    webhookURL := "", status := "", retryCount := 0, nextRetryAt := 0,
    slot0 := RetrySlot.empty, slot1 := RetrySlot.empty, slot2 := RetrySlot.empty,
    slot3 := RetrySlot.empty, slot4 := RetrySlot.empty, slot5 := RetrySlot.empty,
    slot6 := RetrySlot.empty, lastError := "", lastHTTPStatus := 0,
    createdAt := 0, updatedAt := 0, processingStartedAt := none,
    completedAt := none, deletedAt := none }

/-- A concrete freshly-created queue row, as the intake inserts it
(PENDING, tier 0, eligible at its creation instant 1000). -/
def sampleRow : WebhookQueue :=
  { emptyRow with
    id := 7, queueID := 42, eventType := "CREDIT", eventID := "evt-1",
    configID := 3, webhookURL := "https://example.com/hook",
    status := webhookStatusPending, retryCount := 0, nextRetryAt := 1000,
    createdAt := 1000, updatedAt := 1000 }

/-- An update entity whose `retry_count` is zero-valued but whose
`next_retry_at` is not (all other fields zero-valued). -/
def zeroCountUpdate : WebhookQueue := { emptyRow with nextRetryAt := 100 }

/-- A claimed row sitting at the final tier (retry_count 6, PROCESSING). -/
def processingRow6 : WebhookQueue :=
  { sampleRow with retryCount := 6, status := webhookStatusProcessing }

/-- C4: for every retry tier and every jitter sample within the sampled
range, the delay produced by `calculateNextRetryTime` lies between 3/4 and
5/4 of the base delay for that tier (1, 5, 10, 30, 60, 120 minutes for
tiers 0..5, 4 hours otherwise) and is at least one minute. Stated with the
bounds multiplied by 4 to stay in integer arithmetic:
`3*base ≤ 4*delay ≤ 5*base`. -/
theorem backoff_delay_bounds (retryCount jitter : Int)
    (hlo : -(jitterRange retryCount) ≤ jitter)
    (hhi : jitter ≤ jitterRange retryCount) :
    3 * baseDelay retryCount ≤ 4 * finalDelay retryCount jitter ∧
    4 * finalDelay retryCount jitter ≤ 5 * baseDelay retryCount ∧
    durationMinute ≤ finalDelay retryCount jitter := by
  simp only [finalDelay, jitterRange, baseDelay, durationMinute, durationHour] at *
  split_ifs at * <;> omega

/-- Witness for `backoff_delay_bounds`: tier 2 (base 10 minutes) with a
concrete in-range jitter sample. -/
theorem backoff_delay_bounds_witness :
    (-(jitterRange 2) ≤ (100000 : Int) ∧ (100000 : Int) ≤ jitterRange 2) ∧
    (3 * baseDelay 2 ≤ 4 * finalDelay 2 100000 ∧
     4 * finalDelay 2 100000 ≤ 5 * baseDelay 2 ∧
     durationMinute ≤ finalDelay 2 100000) :=
  ⟨⟨by decide, by decide⟩, backoff_delay_bounds 2 100000 (by decide) (by decide)⟩

/-- Projections of `UpdateRetryAttempt` that do not depend on the retry
level: the summary fields it writes and the row fields it never touches. -/
theorem updateRetryAttempt_summary (w : WebhookQueue) (k : Int) (st : WTime)
    (c : Option WTime) (d h : Int) (b e : String) (now : WTime) :
    (updateRetryAttempt w k st c d h b e now).status = w.status ∧
    (updateRetryAttempt w k st c d h b e now).retryCount = w.retryCount ∧
    (updateRetryAttempt w k st c d h b e now).nextRetryAt = w.nextRetryAt ∧
    (updateRetryAttempt w k st c d h b e now).lastHTTPStatus = h ∧
    (updateRetryAttempt w k st c d h b e now).lastError
      = (if e ≠ "" then e else w.lastError) ∧
    (updateRetryAttempt w k st c d h b e now).processingStartedAt
      = w.processingStartedAt ∧
    (updateRetryAttempt w k st c d h b e now).completedAt = w.completedAt ∧
    (updateRetryAttempt w k st c d h b e now).updatedAt = now ∧
    (updateRetryAttempt w k st c d h b e now).id = w.id := by
  unfold updateRetryAttempt
  split_ifs <;> exact ⟨rfl, rfl, rfl, rfl, rfl, rfl, rfl, rfl, rfl⟩


/-- The success classification in integer form. -/
theorem isSuccessfulResponse_iff (c : Int) :
    isSuccessfulResponse c = true ↔ 200 ≤ c ∧ c < 300 := by
  unfold isSuccessfulResponse
  simp [Bool.and_eq_true, decide_eq_true_eq]

/-- Branch equation of `ProcessWebhook`: the successful-attempt branch. -/
theorem processWebhook_success_eq (w : WebhookQueue) (r : WebhookResponse)
    (s e now : WTime) (jitter : Int)
    (hok : isSuccessfulResponse r.statusCode = true) :
    processWebhook w none (some r) s e now jitter =
      markCompletedRow
        (updateRetryAttempt w w.retryCount s (some e) (Int.tdiv (e - s) 1000000)
          r.statusCode r.body (deriveErrorMsg none (some r)) now) s now := by
  simp only [processWebhook, Option.isNone_none, Bool.true_and, hok, if_true]

/-- Branch equation of `ProcessWebhook`: failed attempt with retries left
(`CanRetry` true), i.e. the reschedule through the repository merge. -/
theorem processWebhook_retry_eq (w : WebhookQueue) (err : Option String)
    (response : Option WebhookResponse) (s e now : WTime) (jitter : Int)
    (hfail : ¬(err = none ∧ ∃ r, response = some r ∧ isSuccessfulResponse r.statusCode = true))
    (hcr : w.canRetry = true) :
    processWebhook w err response s e now jitter =
      mergeWebhookIntoModel
        (updateRetryAttempt w w.retryCount s (some e) (Int.tdiv (e - s) 1000000)
          (match response with | some r => r.statusCode | none => 0)
          (match response with | some r => r.body | none => "")
          (deriveErrorMsg err response) now)
        { w with
          lastHTTPStatus := (match response with | some r => r.statusCode | none => 0),
          lastError := if deriveErrorMsg err response ≠ "" then deriveErrorMsg err response
                       else w.lastError,
          retryCount := w.retryCount + 1,
          nextRetryAt := calculateNextRetryTime w.retryCount jitter now,
          status := webhookStatusPending,
          updatedAt := now } := by
  have hcr' := hcr
  simp only [WebhookQueue.canRetry] at hcr'
  cases err with
  | some m =>
    cases response with
    | some r =>
      simp only [processWebhook, Option.isNone_some, Bool.false_and, Bool.false_eq_true,
        if_false, WebhookQueue.canRetry, hcr', if_true]
    | none =>
      simp only [processWebhook, Option.isNone_some, Bool.false_and, Bool.false_eq_true,
        if_false, WebhookQueue.canRetry, hcr', if_true]
  | none =>
    cases response with
    | none =>
      simp only [processWebhook, Option.isNone_none, Bool.true_and, Bool.false_eq_true,
        if_false, WebhookQueue.canRetry, hcr', if_true]
    | some r =>
      have hr : isSuccessfulResponse r.statusCode = false := by
        cases hcase : isSuccessfulResponse r.statusCode
        · rfl
        · exact absurd ⟨rfl, r, rfl, hcase⟩ hfail
      simp only [processWebhook, Option.isNone_none, Bool.true_and, hr,
        Bool.false_eq_true, if_false, WebhookQueue.canRetry, hcr', if_true]

/-- Branch equation of `ProcessWebhook`: failed attempt with retries
exhausted (`CanRetry` false), i.e. the permanent-failure mark. -/
theorem processWebhook_failed_eq (w : WebhookQueue) (err : Option String)
    (response : Option WebhookResponse) (s e now : WTime) (jitter : Int)
    (hfail : ¬(err = none ∧ ∃ r, response = some r ∧ isSuccessfulResponse r.statusCode = true))
    (hcr : w.canRetry = false) :
    processWebhook w err response s e now jitter =
      markFailedRow
        (updateRetryAttempt w w.retryCount s (some e) (Int.tdiv (e - s) 1000000)
          (match response with | some r => r.statusCode | none => 0)
          (match response with | some r => r.body | none => "")
          (deriveErrorMsg err response) now)
        (match err with
         | some m => "max retries exceeded: " ++ m
         | none => match response with
           | some r => "max retries exceeded: HTTP " ++ toString r.statusCode
           | none => "max retries exceeded") now := by
  have hcr' := hcr
  simp only [WebhookQueue.canRetry] at hcr'
  cases err with
  | some m =>
    cases response with
    | some r =>
      simp only [processWebhook, Option.isNone_some, Bool.false_and, Bool.false_eq_true,
        if_false, WebhookQueue.canRetry, hcr']
    | none =>
      simp only [processWebhook, Option.isNone_some, Bool.false_and, Bool.false_eq_true,
        if_false, WebhookQueue.canRetry, hcr']
  | none =>
    cases response with
    | none =>
      simp only [processWebhook, Option.isNone_none, Bool.true_and, Bool.false_eq_true,
        if_false, WebhookQueue.canRetry, hcr']
    | some r =>
      have hr : isSuccessfulResponse r.statusCode = false := by
        cases hcase : isSuccessfulResponse r.statusCode
        · rfl
        · exact absurd ⟨rfl, r, rfl, hcase⟩ hfail
      simp only [processWebhook, Option.isNone_none, Bool.true_and, hr,
        Bool.false_eq_true, if_false, WebhookQueue.canRetry, hcr']

/-- Field reading of the merge-update: `status`. -/
theorem mergeWebhookIntoModel_status (model upd : WebhookQueue) :
    (mergeWebhookIntoModel model upd).status
      = if upd.status ≠ "" then upd.status else model.status := rfl

/-- Field reading of the merge-update: `retry_count` (coupled with
`next_retry_at`). -/
theorem mergeWebhookIntoModel_retryCount (model upd : WebhookQueue) :
    (mergeWebhookIntoModel model upd).retryCount
      = if upd.retryCount ≠ 0 ∨ upd.nextRetryAt ≠ 0 then upd.retryCount
        else model.retryCount := rfl

/-- Field reading of the merge-update: `next_retry_at` (coupled with
`retry_count`). -/
theorem mergeWebhookIntoModel_nextRetryAt (model upd : WebhookQueue) :
    (mergeWebhookIntoModel model upd).nextRetryAt
      = if upd.retryCount ≠ 0 ∨ upd.nextRetryAt ≠ 0 then upd.nextRetryAt
        else model.nextRetryAt := rfl

/-- Field reading of the merge-update: `last_error`. -/
theorem mergeWebhookIntoModel_lastError (model upd : WebhookQueue) :
    (mergeWebhookIntoModel model upd).lastError
      = if upd.lastError ≠ "" then upd.lastError else model.lastError := rfl

/-- C2: `ProcessWebhook` marks the row COMPLETED exactly when the send
returned no transport error and a response with a 2xx status; every other
outcome leaves the row PENDING or FAILED, never COMPLETED, and a COMPLETED
result carries the attempt's start instant as `processing_started_at` and
the 2xx status just recorded as `last_http_status`. -/
theorem processWebhook_completed_iff (w : WebhookQueue) (err : Option String)
    (response : Option WebhookResponse) (s e now : WTime) (jitter : Int) :
    ((processWebhook w err response s e now jitter).status = webhookStatusCompleted
      ↔ err = none ∧ ∃ r, response = some r ∧ 200 ≤ r.statusCode ∧ r.statusCode < 300)
    ∧ ((processWebhook w err response s e now jitter).status = webhookStatusCompleted →
        (processWebhook w err response s e now jitter).processingStartedAt = some s ∧
        200 ≤ (processWebhook w err response s e now jitter).lastHTTPStatus ∧
        (processWebhook w err response s e now jitter).lastHTTPStatus < 300) := by
  by_cases hs : err = none ∧ ∃ r, response = some r ∧ isSuccessfulResponse r.statusCode = true
  · obtain ⟨he, r, hr, hok⟩ := hs
    subst he
    subst hr
    rw [processWebhook_success_eq w r s e now jitter hok]
    have h2xx := (isSuccessfulResponse_iff r.statusCode).mp hok
    have hst := (updateRetryAttempt_summary w w.retryCount s (some e)
      (Int.tdiv (e - s) 1000000) r.statusCode r.body
      (deriveErrorMsg none (some r)) now).2.2.2.1
    refine ⟨⟨fun _ => ⟨rfl, r, rfl, h2xx⟩, fun _ => rfl⟩, fun _ => ⟨rfl, ?_, ?_⟩⟩
    · simpa [markCompletedRow, hst] using h2xx.1
    · simpa [markCompletedRow, hst] using h2xx.2
  · have hfail := hs
    have hnot : ¬(err = none ∧ ∃ r, response = some r ∧ 200 ≤ r.statusCode ∧ r.statusCode < 300) := by
      intro ⟨he, r, hr, h2xx⟩
      exact hs ⟨he, r, hr, (isSuccessfulResponse_iff r.statusCode).mpr h2xx⟩
    have hne : (processWebhook w err response s e now jitter).status ≠ webhookStatusCompleted := by
      by_cases hcr : w.canRetry = true
      · rw [processWebhook_retry_eq w err response s e now jitter hfail hcr,
          mergeWebhookIntoModel_status]
        simp only [if_pos (by decide : webhookStatusPending ≠ "")]
        decide
      · rw [processWebhook_failed_eq w err response s e now jitter hfail
          (by revert hcr; cases w.canRetry <;> simp)]
        simp only [markFailedRow]
        decide
    exact ⟨⟨fun hc => absurd hc hne, fun hc => absurd hc hnot⟩, fun hc => absurd hc hne⟩

/-- Witness for `processWebhook_completed_iff`: a concrete 204 response
with no transport error yields a COMPLETED row. -/
theorem processWebhook_completed_iff_witness :
    (processWebhook sampleRow none (some { statusCode := 204, body := "" })
      10 20 30 0).status = webhookStatusCompleted :=
  (processWebhook_completed_iff sampleRow none (some { statusCode := 204, body := "" })
    10 20 30 0).1.mpr ⟨rfl, { statusCode := 204, body := "" }, rfl, by decide, by decide⟩

/-- The clamped backoff delay is at least one minute. -/
theorem durationMinute_le_finalDelay (k j : Int) :
    durationMinute ≤ finalDelay k j := by
  simp only [finalDelay]
  split_ifs <;> omega

/-- The clamped backoff delay is strictly positive. -/
theorem finalDelay_pos (k j : Int) : 0 < finalDelay k j := by
  have h := durationMinute_le_finalDelay k j
  have hd : (0 : Int) < durationMinute := by decide
  omega

/-- C3: a failed attempt with retries left (retry_count < 6 on a
non-terminal claimed row) reschedules the row: retry_count is incremented
by exactly one, status returns to PENDING, and next_retry_at follows the
backoff schedule, landing strictly in the future; a failed attempt at
retry_count = 6 marks the row FAILED with a last_error equal to
"max retries exceeded: " followed by the transport error message or
"HTTP <code>". -/
theorem processWebhook_failure_spec (w : WebhookQueue) (err : Option String)
    (response : Option WebhookResponse) (s e now : WTime) (jitter : Int)
    (hfail : ¬(err = none ∧ ∃ r, response = some r ∧ isSuccessfulResponse r.statusCode = true))
    (hnc : isCompletedStatus w.status = false)
    (hrc0 : 0 ≤ w.retryCount)
    (hsome : err ≠ none ∨ response ≠ none) :
    (w.retryCount < 6 →
      (processWebhook w err response s e now jitter).retryCount = w.retryCount + 1 ∧
      (processWebhook w err response s e now jitter).status = webhookStatusPending ∧
      (processWebhook w err response s e now jitter).nextRetryAt
        = calculateNextRetryTime w.retryCount jitter now ∧
      now < (processWebhook w err response s e now jitter).nextRetryAt) ∧
    (w.retryCount = 6 →
      (processWebhook w err response s e now jitter).status = webhookStatusFailed ∧
      ∃ reason, (processWebhook w err response s e now jitter).lastError
          = "max retries exceeded: " ++ reason ∧
        ((∃ m, err = some m ∧ reason = m) ∨
         (err = none ∧ ∃ r, response = some r
            ∧ reason = "HTTP " ++ toString r.statusCode))) := by
  constructor
  · intro hlt
    have hcr : w.canRetry = true := by
      unfold WebhookQueue.canRetry
      rw [hnc]
      simp only [Bool.not_false, Bool.and_true, decide_eq_true_eq]
      unfold maxRetryAttempts
      exact hlt
    rw [processWebhook_retry_eq w err response s e now jitter hfail hcr]
    rw [mergeWebhookIntoModel_retryCount, mergeWebhookIntoModel_status,
      mergeWebhookIntoModel_nextRetryAt]
    simp only []
    have hcond : w.retryCount + 1 ≠ 0 ∨ calculateNextRetryTime w.retryCount jitter now ≠ 0 :=
      Or.inl (by omega)
    rw [if_pos hcond, if_pos hcond, if_pos (by decide : webhookStatusPending ≠ "")]
    refine ⟨rfl, rfl, rfl, ?_⟩
    show now < now + finalDelay w.retryCount jitter
    exact lt_add_of_pos_right now (finalDelay_pos w.retryCount jitter)
  · intro heq
    have hcr : w.canRetry = false := by
      unfold WebhookQueue.canRetry
      rw [heq]
      unfold maxRetryAttempts
      simp
    rw [processWebhook_failed_eq w err response s e now jitter hfail hcr]
    simp only [markFailedRow]
    refine ⟨trivial, ?_⟩
    cases err with
    | some m => exact ⟨m, rfl, Or.inl ⟨m, rfl, rfl⟩⟩
    | none =>
      cases response with
      | none =>
        exfalso
        rcases hsome with h | h
        · exact h rfl
        · exact h rfl
      | some r =>
        refine ⟨"HTTP " ++ toString r.statusCode, ?_, Or.inr ⟨rfl, r, rfl, rfl⟩⟩
        have hlit : "max retries exceeded: " ++ "HTTP " = "max retries exceeded: HTTP " := by
          decide
        rw [← String.append_assoc, hlit]

/-- Witness for `processWebhook_failure_spec`: a transport error on a
claimed tier-6 row yields a FAILED row. -/
theorem processWebhook_failure_spec_witness :
    (processWebhook processingRow6 (some "connection refused") none
      10 20 30 5).status = webhookStatusFailed :=
  ((processWebhook_failure_spec processingRow6 (some "connection refused") none
      10 20 30 5 (by simp) (by decide) (by decide) (Or.inl (by simp))).2 (by decide)).1

/-- C7: for every tier 0..6, `UpdateRetryAttempt` writes the tier-k history
slot (started_at, duration_ms, http_status, response_body always;
completed_at when supplied; the slot error only when error_msg is
non-empty), always overwrites `last_http_status`, and writes `last_error`
only for a non-empty error_msg — an empty error_msg leaves `last_error`
holding its previous value. -/
theorem updateRetryAttempt_spec (w : WebhookQueue) (k : Int) (st : WTime)
    (c : Option WTime) (d h : Int) (b e : String) (now : WTime)
    (hk0 : 0 ≤ k) (hk6 : k ≤ 6) :
    ((updateRetryAttempt w k st c d h b e now).getSlot k).startedAt = some st ∧
    ((updateRetryAttempt w k st c d h b e now).getSlot k).durationMs = some d ∧
    ((updateRetryAttempt w k st c d h b e now).getSlot k).httpStatus = some h ∧
    ((updateRetryAttempt w k st c d h b e now).getSlot k).responseBody = some b ∧
    ((updateRetryAttempt w k st c d h b e now).getSlot k).completedAt
      = (match c with | some t => some t | none => (w.getSlot k).completedAt) ∧
    ((updateRetryAttempt w k st c d h b e now).getSlot k).error
      = (if e ≠ "" then some e else (w.getSlot k).error) ∧
    (updateRetryAttempt w k st c d h b e now).lastHTTPStatus = h ∧
    (e ≠ "" → (updateRetryAttempt w k st c d h b e now).lastError = e) ∧
    (e = "" → (updateRetryAttempt w k st c d h b e now).lastError = w.lastError) := by
  have hsum := updateRetryAttempt_summary w k st c d h b e now
  have hle := hsum.2.2.2.2.1
  refine ⟨?_, ?_, ?_, ?_, ?_, ?_, hsum.2.2.2.1,
    fun he => by rw [hle, if_pos he],
    fun he => by rw [hle, if_neg (by simp [he])]⟩ <;>
  · interval_cases k <;> rfl

/-- Witness for `updateRetryAttempt_spec`: a concrete tier-1 failed attempt
record. -/
theorem updateRetryAttempt_spec_witness :
    (updateRetryAttempt sampleRow 1 5 (some 6) 7 503 "b" "boom" 9).lastHTTPStatus = 503 ∧
    ((updateRetryAttempt sampleRow 1 5 (some 6) 7 503 "b" "boom" 9).getSlot 1).startedAt
      = some 5 := by
  have hspec := updateRetryAttempt_spec sampleRow 1 5 (some 6) 7 503 "b" "boom" 9
    (by decide) (by decide)
  exact ⟨hspec.2.2.2.2.2.2.1, hspec.1⟩

/-- C10: `MarkCompleted` writes exactly status (COMPLETED),
processing_started_at (the supplied value), completed_at (now) and
updated_at (now) on the row with the given id; every other field of that
row, and every row with a different id, is left unchanged. -/
theorem markCompleted_frame (db : List WebhookQueue) (webhookID : Int)
    (pst now : WTime) :
    (∀ w : WebhookQueue,
       (markCompletedRow w pst now).status = webhookStatusCompleted ∧
       (markCompletedRow w pst now).processingStartedAt = some pst ∧
       (markCompletedRow w pst now).completedAt = some now ∧
       (markCompletedRow w pst now).updatedAt = now ∧
       (markCompletedRow w pst now).id = w.id ∧
       (markCompletedRow w pst now).queueID = w.queueID ∧
       (markCompletedRow w pst now).eventType = w.eventType ∧
       (markCompletedRow w pst now).eventID = w.eventID ∧
       (markCompletedRow w pst now).configID = w.configID ∧
       (markCompletedRow w pst now).webhookURL = w.webhookURL ∧
       (markCompletedRow w pst now).retryCount = w.retryCount ∧
       (markCompletedRow w pst now).nextRetryAt = w.nextRetryAt ∧
       (markCompletedRow w pst now).slot0 = w.slot0 ∧
       (markCompletedRow w pst now).slot1 = w.slot1 ∧
       (markCompletedRow w pst now).slot2 = w.slot2 ∧
       (markCompletedRow w pst now).slot3 = w.slot3 ∧
       (markCompletedRow w pst now).slot4 = w.slot4 ∧
       (markCompletedRow w pst now).slot5 = w.slot5 ∧
       (markCompletedRow w pst now).slot6 = w.slot6 ∧
       (markCompletedRow w pst now).lastError = w.lastError ∧
       (markCompletedRow w pst now).lastHTTPStatus = w.lastHTTPStatus ∧
       (markCompletedRow w pst now).createdAt = w.createdAt ∧
       (markCompletedRow w pst now).deletedAt = w.deletedAt) ∧
    (markCompleted db webhookID pst now).length = db.length ∧
    (∀ i : Nat, ∀ hi : i < db.length, (db.get ⟨i, hi⟩).id ≠ webhookID →
       (markCompleted db webhookID pst now)[i]? = some (db.get ⟨i, hi⟩)) ∧
    (∀ i : Nat, ∀ hi : i < db.length, (db.get ⟨i, hi⟩).id = webhookID →
       (markCompleted db webhookID pst now)[i]?
         = some (markCompletedRow (db.get ⟨i, hi⟩) pst now)) := by
  refine ⟨fun w => ⟨rfl, rfl, rfl, rfl, rfl, rfl, rfl, rfl, rfl, rfl, rfl, rfl, rfl,
    rfl, rfl, rfl, rfl, rfl, rfl, rfl, rfl, rfl, rfl⟩, ?_, ?_, ?_⟩
  · simp [markCompleted]
  · intro i hi hne
    simp only [markCompleted, List.getElem?_map, List.get_eq_getElem] at *
    rw [List.getElem?_eq_getElem hi]
    simp [hne]
  · intro i hi heq
    simp only [markCompleted, List.getElem?_map, List.get_eq_getElem] at *
    rw [List.getElem?_eq_getElem hi]
    simp [heq]

/-- Witness for `markCompleted_frame`: in a two-row table, marking row id 9
leaves the row with id 7 untouched. -/
theorem markCompleted_frame_witness :
    (markCompleted [sampleRow, { sampleRow with id := 9 }] 9 11 12)[0]?
      = some sampleRow := by
  have hframe := markCompleted_frame [sampleRow, { sampleRow with id := 9 }] 9 11 12
  exact hframe.2.2.1 0 (by decide) (by decide)

/-- If the roster loop fails at any worker, the pool comes out with no
started worker left and the running flag untouched. -/
theorem startLoop_failure (p : WorkerPool) (oks : List Bool)
    (hrun : p.running = false) (herr : (startLoop p oks).1 ≠ none) :
    (startLoop p oks).2.workers = [] ∧ (startLoop p oks).2.running = false := by
  induction oks generalizing p with
  | nil => exact absurd rfl herr
  | cons ok rest ih =>
    cases ok with
    | true =>
      simp only [startLoop, if_pos rfl] at herr ⊢
      exact ih { p with workers := p.workers ++ [true] } hrun herr
    | false => exact ⟨rfl, hrun⟩

/-- C9: `Start` on a running pool returns an error leaving the pool
untouched; `Stop` on a non-running pool returns an error leaving the pool
untouched; and when any worker start fails during `Start` of a non-running
pool, every already-started worker is stopped before the error returns, so
a failed `Start` leaves no worker running. -/
theorem workerPool_start_stop_spec (p : WorkerPool) (startResults : List Bool) :
    (p.running = true →
       startPool p startResults = (some "worker pool is already running", p)) ∧
    (p.running = false → (stopPool p).1 ≠ none ∧ (stopPool p).2 = p) ∧
    (p.running = false → (startPool p startResults).1 ≠ none →
       (startPool p startResults).2.workers = [] ∧
       (startPool p startResults).2.running = false) := by
  refine ⟨?_, ?_, ?_⟩
  · intro hrun
    simp [startPool, hrun]
  · intro hrun
    simp [stopPool, hrun]
  · intro hrun herr
    have hp : startPool p startResults = startLoop p startResults := by
      simp [startPool, hrun]
    rw [hp] at herr ⊢
    exact startLoop_failure p startResults hrun herr

/-- Witness for `workerPool_start_stop_spec`: a second start errors without
state change, and a start whose second worker fails clears the roster. -/
theorem workerPool_start_stop_spec_witness :
    startPool { running := true, workers := [true] } [true]
      = (some "worker pool is already running", { running := true, workers := [true] }) ∧
    (startPool newWorkerPool [true, false]).2.workers = [] := by
  have h1 := workerPool_start_stop_spec { running := true, workers := [true] } [true]
  have h2 := workerPool_start_stop_spec newWorkerPool [true, false]
  exact ⟨h1.1 rfl, (h2.2.2 rfl (by decide)).1⟩

/-- Counterexample to the claim that zero-valued update fields never
overwrite persisted values: an update whose retry_count is zero but whose
next_retry_at is non-zero overwrites a persisted retry_count of 3 with 0,
because the merge writes the coupled pair when either member is non-zero. -/
theorem merge_zero_retry_count_overwrites :
    zeroCountUpdate.retryCount = 0 ∧
    (mergeWebhookIntoModel { sampleRow with retryCount := 3 } zeroCountUpdate).retryCount
      ≠ ({ sampleRow with retryCount := 3 } : WebhookQueue).retryCount := by
  decide

/-- C6 (amended): the merge-update preserves each zero-valued field and
overwrites each non-zero field, for every field it handles except the
coupled pair: retry_count and next_retry_at are preserved exactly when
both are zero-valued and are both written (zero values included) when
either is non-zero; id, created_at and the tier history columns are never
modified. -/
theorem merge_update_spec (model upd : WebhookQueue) :
    (upd.queueID = 0 → (mergeWebhookIntoModel model upd).queueID = model.queueID) ∧
    (upd.queueID ≠ 0 → (mergeWebhookIntoModel model upd).queueID = upd.queueID) ∧
    (upd.eventType = "" → (mergeWebhookIntoModel model upd).eventType = model.eventType) ∧
    (upd.eventType ≠ "" → (mergeWebhookIntoModel model upd).eventType = upd.eventType) ∧
    (upd.eventID = "" → (mergeWebhookIntoModel model upd).eventID = model.eventID) ∧
    (upd.eventID ≠ "" → (mergeWebhookIntoModel model upd).eventID = upd.eventID) ∧
    (upd.configID = 0 → (mergeWebhookIntoModel model upd).configID = model.configID) ∧
    (upd.configID ≠ 0 → (mergeWebhookIntoModel model upd).configID = upd.configID) ∧
    (upd.webhookURL = "" → (mergeWebhookIntoModel model upd).webhookURL = model.webhookURL) ∧
    (upd.webhookURL ≠ "" → (mergeWebhookIntoModel model upd).webhookURL = upd.webhookURL) ∧
    (upd.status = "" → (mergeWebhookIntoModel model upd).status = model.status) ∧
    (upd.status ≠ "" → (mergeWebhookIntoModel model upd).status = upd.status) ∧
    (upd.retryCount = 0 ∧ upd.nextRetryAt = 0 →
       (mergeWebhookIntoModel model upd).retryCount = model.retryCount ∧
       (mergeWebhookIntoModel model upd).nextRetryAt = model.nextRetryAt) ∧
    (upd.retryCount ≠ 0 ∨ upd.nextRetryAt ≠ 0 →
       (mergeWebhookIntoModel model upd).retryCount = upd.retryCount ∧
       (mergeWebhookIntoModel model upd).nextRetryAt = upd.nextRetryAt) ∧
    (upd.lastError = "" → (mergeWebhookIntoModel model upd).lastError = model.lastError) ∧
    (upd.lastError ≠ "" → (mergeWebhookIntoModel model upd).lastError = upd.lastError) ∧
    (upd.lastHTTPStatus = 0 →
       (mergeWebhookIntoModel model upd).lastHTTPStatus = model.lastHTTPStatus) ∧
    (upd.lastHTTPStatus ≠ 0 →
       (mergeWebhookIntoModel model upd).lastHTTPStatus = upd.lastHTTPStatus) ∧
    (upd.updatedAt = 0 → (mergeWebhookIntoModel model upd).updatedAt = model.updatedAt) ∧
    (upd.updatedAt ≠ 0 → (mergeWebhookIntoModel model upd).updatedAt = upd.updatedAt) ∧
    (upd.processingStartedAt = none →
       (mergeWebhookIntoModel model upd).processingStartedAt = model.processingStartedAt) ∧
    (∀ t, upd.processingStartedAt = some t →
       (mergeWebhookIntoModel model upd).processingStartedAt = some t) ∧
    (upd.completedAt = none →
       (mergeWebhookIntoModel model upd).completedAt = model.completedAt) ∧
    (∀ t, upd.completedAt = some t →
       (mergeWebhookIntoModel model upd).completedAt = some t) ∧
    (upd.deletedAt = none →
       (mergeWebhookIntoModel model upd).deletedAt = model.deletedAt) ∧
    (∀ t, upd.deletedAt = some t →
       (mergeWebhookIntoModel model upd).deletedAt = some t) ∧
    (mergeWebhookIntoModel model upd).id = model.id ∧
    (mergeWebhookIntoModel model upd).createdAt = model.createdAt ∧
    (mergeWebhookIntoModel model upd).slot0 = model.slot0 ∧
    (mergeWebhookIntoModel model upd).slot1 = model.slot1 ∧
    (mergeWebhookIntoModel model upd).slot2 = model.slot2 ∧
    (mergeWebhookIntoModel model upd).slot3 = model.slot3 ∧
    (mergeWebhookIntoModel model upd).slot4 = model.slot4 ∧
    (mergeWebhookIntoModel model upd).slot5 = model.slot5 ∧
    (mergeWebhookIntoModel model upd).slot6 = model.slot6 := by
  refine ⟨fun h => by simp [mergeWebhookIntoModel, h],
    fun h => by simp [mergeWebhookIntoModel, h],
    fun h => by simp [mergeWebhookIntoModel, h],
    fun h => by simp [mergeWebhookIntoModel, h],
    fun h => by simp [mergeWebhookIntoModel, h],
    fun h => by simp [mergeWebhookIntoModel, h],
    fun h => by simp [mergeWebhookIntoModel, h],
    fun h => by simp [mergeWebhookIntoModel, h],
    fun h => by simp [mergeWebhookIntoModel, h],
    fun h => by simp [mergeWebhookIntoModel, h],
    fun h => by simp [mergeWebhookIntoModel, h],
    fun h => by simp [mergeWebhookIntoModel, h],
    fun h => by simp [mergeWebhookIntoModel, h.1, h.2],
    fun h => by
      constructor
      · show (if upd.retryCount ≠ 0 ∨ upd.nextRetryAt ≠ 0 then upd.retryCount
              else model.retryCount) = upd.retryCount
        rw [if_pos h]
      · show (if upd.retryCount ≠ 0 ∨ upd.nextRetryAt ≠ 0 then upd.nextRetryAt
              else model.nextRetryAt) = upd.nextRetryAt
        rw [if_pos h],
    fun h => by simp [mergeWebhookIntoModel, h],
    fun h => by simp [mergeWebhookIntoModel, h],
    fun h => by simp [mergeWebhookIntoModel, h],
    fun h => by simp [mergeWebhookIntoModel, h],
    fun h => by simp [mergeWebhookIntoModel, h],
    fun h => by simp [mergeWebhookIntoModel, h],
    fun h => by simp [mergeWebhookIntoModel, h],
    fun t ht => by simp [mergeWebhookIntoModel, ht],
    fun h => by simp [mergeWebhookIntoModel, h],
    fun t ht => by simp [mergeWebhookIntoModel, ht],
    fun h => by simp [mergeWebhookIntoModel, h],
    fun t ht => by simp [mergeWebhookIntoModel, ht],
    rfl, rfl, rfl, rfl, rfl, rfl, rfl, rfl, rfl⟩

/-- Witness for `merge_update_spec`: against a persisted sample row, the
all-zero update with a set next_retry_at preserves queue_id and overwrites
the coupled retry_count/next_retry_at pair. -/
theorem merge_update_spec_witness :
    (mergeWebhookIntoModel sampleRow zeroCountUpdate).queueID = sampleRow.queueID ∧
    (mergeWebhookIntoModel sampleRow zeroCountUpdate).retryCount
      = zeroCountUpdate.retryCount := by
  obtain ⟨h1, -, -, -, -, -, -, -, -, -, -, -, -, h14, -⟩ :=
    merge_update_spec sampleRow zeroCountUpdate
  exact ⟨h1 rfl, (h14 (Or.inr (by decide))).1⟩

/-- The claim SELECT comes back empty exactly when no row matches the
eligibility predicate. -/
theorem minEligible_eq_none_iff (tier : Int) (now : WTime) (db : List WebhookQueue) :
    minEligible tier now db = none ↔ ∀ r ∈ db, isEligible tier now r = false := by
  induction db with
  | nil => simp [minEligible]
  | cons w ws ih =>
    cases hm : minEligible tier now ws with
    | none =>
      by_cases he : isEligible tier now w = true
      · simp only [minEligible, hm, if_pos he]
        simp only [reduceCtorEq, false_iff, List.forall_mem_cons, not_and]
        intro hw
        rw [he] at hw
        cases hw
      · simp only [minEligible, hm, if_neg he]
        simp only [List.forall_mem_cons, true_iff]
        exact ⟨by revert he; cases isEligible tier now w <;> simp, (ih.mp hm)⟩
    | some m =>
      simp only [minEligible, hm]
      have hne : ∃ r ∈ ws, isEligible tier now r = true := by
        by_contra hc
        push_neg at hc
        have : minEligible tier now ws = none := ih.mpr (by
          intro r hr
          have := hc r hr
          revert this
          cases isEligible tier now r <;> simp)
        rw [this] at hm
        cases hm
      obtain ⟨r, hr, hre⟩ := hne
      constructor
      · intro hc
        split_ifs at hc
      · intro hall
        rw [hall r (List.mem_cons_of_mem _ hr)] at hre
        cases hre

/-- A returned claim candidate is an eligible row of the table with
minimal `next_retry_at` among eligible rows. -/
theorem minEligible_some_spec (tier : Int) (now : WTime) (db : List WebhookQueue)
    (m : WebhookQueue) (hm : minEligible tier now db = some m) :
    m ∈ db ∧ isEligible tier now m = true ∧
    ∀ r ∈ db, isEligible tier now r = true → m.nextRetryAt ≤ r.nextRetryAt := by
  induction db generalizing m with
  | nil => cases hm
  | cons w ws ih =>
    cases hw : minEligible tier now ws with
    | none =>
      simp only [minEligible, hw] at hm
      by_cases he : isEligible tier now w = true
      · rw [if_pos he] at hm
        cases hm
        refine ⟨List.mem_cons_self _ _, he, ?_⟩
        intro r hr hre
        rcases List.mem_cons.mp hr with h | h
        · subst h
          exact le_refl _
        · have := (minEligible_eq_none_iff tier now ws).mp hw r h
          rw [hre] at this
          cases this
      · rw [if_neg he] at hm
        cases hm
    | some mp =>
      simp only [minEligible, hw] at hm
      obtain ⟨hmem, helig, hmin⟩ := ih mp hw
      by_cases hcond : (isEligible tier now w
          && decide (w.nextRetryAt ≤ mp.nextRetryAt)) = true
      · rw [if_pos hcond] at hm
        cases hm
        rw [Bool.and_eq_true, decide_eq_true_eq] at hcond
        refine ⟨List.mem_cons_self _ _, hcond.1, ?_⟩
        intro r hr hre
        rcases List.mem_cons.mp hr with h | h
        · subst h
          exact le_refl _
        · exact le_trans hcond.2 (hmin r h hre)
      · rw [if_neg hcond] at hm
        cases hm
        refine ⟨List.mem_cons_of_mem _ hmem, helig, ?_⟩
        intro r hr hre
        rcases List.mem_cons.mp hr with h | h
        · subst h
          rw [Bool.and_eq_true, decide_eq_true_eq, not_and] at hcond
          have hb := hcond hre
          exact le_of_not_le hb
        · exact hmin r h hre

/-- C1: the claim returns none exactly when no PENDING row of the tier is
due, in which case the table is untouched; otherwise it returns an
eligible row of minimal `next_retry_at`, flipped to PROCESSING with
`updated_at = now`, and only that row (addressed by id) changes in the
table. -/
theorem getNextWebhook_spec (db : List WebhookQueue) (tier : Int) (now : WTime) :
    ((getNextWebhookForProcessing db tier now).1 = none ↔
       ∀ r ∈ db, isEligible tier now r = false) ∧
    ((getNextWebhookForProcessing db tier now).1 = none →
       (getNextWebhookForProcessing db tier now).2 = db) ∧
    (∀ w, (getNextWebhookForProcessing db tier now).1 = some w →
       ∃ m, m ∈ db ∧ isEligible tier now m = true ∧
         (∀ r ∈ db, isEligible tier now r = true → m.nextRetryAt ≤ r.nextRetryAt) ∧
         w = { m with status := webhookStatusProcessing, updatedAt := now } ∧
         (getNextWebhookForProcessing db tier now).2
           = db.map (fun r => if r.id = m.id then w else r)) := by
  cases hm : minEligible tier now db with
  | none =>
    have h1 : (getNextWebhookForProcessing db tier now).1 = none := by
      simp only [getNextWebhookForProcessing, hm]
    have h2 : (getNextWebhookForProcessing db tier now).2 = db := by
      simp only [getNextWebhookForProcessing, hm]
    refine ⟨⟨fun _ => (minEligible_eq_none_iff tier now db).mp hm, fun _ => h1⟩,
      fun _ => h2, fun w hw => ?_⟩
    rw [h1] at hw
    cases hw
  | some m =>
    have h1 : (getNextWebhookForProcessing db tier now).1
        = some { m with status := webhookStatusProcessing, updatedAt := now } := by
      simp only [getNextWebhookForProcessing, hm]
    have h2 : (getNextWebhookForProcessing db tier now).2
        = db.map (fun r => if r.id = m.id then
            { m with status := webhookStatusProcessing, updatedAt := now } else r) := by
      simp only [getNextWebhookForProcessing, hm]
    obtain ⟨hmem, helig, hmin⟩ := minEligible_some_spec tier now db m hm
    refine ⟨⟨fun hc => ?_, fun hall => ?_⟩, fun hc => ?_, fun w hw => ?_⟩
    · rw [h1] at hc
      cases hc
    · rw [hall m hmem] at helig
      cases helig
    · rw [h1] at hc
      cases hc
    · rw [h1] at hw
      cases hw
      exact ⟨m, hmem, helig, hmin, rfl, h2⟩

/-- Witness for `getNextWebhook_spec`: a table holding only a PROCESSING
row yields no claim and stays untouched. -/
theorem getNextWebhook_spec_witness :
    (getNextWebhookForProcessing [processingRow6] 0 2000).2 = [processingRow6] := by
  have h := getNextWebhook_spec [processingRow6] 0 2000
  exact h.2.1 (by decide)

/-- Counterexample to the claim that Insert then ClaimNext(0) returns the
inserted row changed only in status: the claim also stamps `updated_at`
with the claim instant, so claiming at time 2000 a row inserted at time
1000 differs from the inserted row in `updated_at` as well. -/
theorem create_then_claim_not_only_status :
    (getNextWebhookForProcessing (create [] sampleRow 1 42).2 0 2000).1
      ≠ some { (create [] sampleRow 1 42).1 with status := webhookStatusProcessing } := by
  decide

/-- C8 (amended): inserting a fresh PENDING tier-0 row into an empty table
and then claiming tier 0 at any instant at which the row is due returns a
row equal to the inserted row in every field except status, which becomes
PROCESSING, and updated_at, which becomes the claim instant; the table
then holds exactly that claimed row. -/
theorem create_then_claim (w : WebhookQueue) (newID : Int) (newQueueID : Nat)
    (tclaim : WTime) (hs : w.status = webhookStatusPending)
    (hrc : w.retryCount = 0) (he : w.nextRetryAt ≤ tclaim) :
    (getNextWebhookForProcessing (create [] w newID newQueueID).2 0 tclaim).1
      = some { (create [] w newID newQueueID).1 with
               status := webhookStatusProcessing, updatedAt := tclaim } ∧
    (getNextWebhookForProcessing (create [] w newID newQueueID).2 0 tclaim).2
      = [{ (create [] w newID newQueueID).1 with
           status := webhookStatusProcessing, updatedAt := tclaim }] := by
  have hel : isEligible 0 tclaim (create [] w newID newQueueID).1 = true := by
    simp only [create, isEligible]
    rw [hs]
    simp [hrc, he, webhookStatusPending]
  have hmin : minEligible 0 tclaim (create [] w newID newQueueID).2
      = some (create [] w newID newQueueID).1 := by
    show minEligible 0 tclaim [(create [] w newID newQueueID).1]
      = some (create [] w newID newQueueID).1
    simp only [minEligible, hel, if_true]
  constructor
  · show (getNextWebhookForProcessing
      [(create [] w newID newQueueID).1] 0 tclaim).1 = _
    simp only [getNextWebhookForProcessing]
    rw [show minEligible 0 tclaim [(create [] w newID newQueueID).1]
      = some (create [] w newID newQueueID).1 from hmin]
  · show (getNextWebhookForProcessing
      [(create [] w newID newQueueID).1] 0 tclaim).2 = _
    simp only [getNextWebhookForProcessing]
    rw [show minEligible 0 tclaim [(create [] w newID newQueueID).1]
      = some (create [] w newID newQueueID).1 from hmin]
    simp

/-- Witness for `create_then_claim`: the concrete sample insert claimed at
time 2000. -/
theorem create_then_claim_witness :
    (getNextWebhookForProcessing (create [] sampleRow 1 42).2 0 2000).1
      = some { (create [] sampleRow 1 42).1 with
               status := webhookStatusProcessing, updatedAt := 2000 } :=
  (create_then_claim sampleRow 1 42 2000 rfl rfl (by decide)).1

/-- `ProcessWebhook` moves `retry_count` forward by zero or one, stays
inside `[0, 6]`, and only increments when retries were left. -/
theorem processWebhook_retryCount_step (w : WebhookQueue) (err : Option String)
    (response : Option WebhookResponse) (s e now : WTime) (jitter : Int)
    (h0 : 0 ≤ w.retryCount) (h6 : w.retryCount ≤ 6) :
    w.retryCount ≤ (processWebhook w err response s e now jitter).retryCount ∧
    (processWebhook w err response s e now jitter).retryCount ≤ 6 ∧
    0 ≤ (processWebhook w err response s e now jitter).retryCount := by
  by_cases hs : err = none ∧ ∃ r, response = some r ∧ isSuccessfulResponse r.statusCode = true
  · obtain ⟨he, r, hr, hok⟩ := hs
    subst he
    subst hr
    rw [processWebhook_success_eq w r s e now jitter hok]
    have hrc := (updateRetryAttempt_summary w w.retryCount s (some e)
      (Int.tdiv (e - s) 1000000) r.statusCode r.body
      (deriveErrorMsg none (some r)) now).2.1
    simp only [markCompletedRow]
    rw [hrc]
    exact ⟨le_refl _, h6, h0⟩
  · by_cases hcr : w.canRetry = true
    · rw [processWebhook_retry_eq w err response s e now jitter hs hcr]
      rw [mergeWebhookIntoModel_retryCount]
      simp only []
      rw [if_pos (Or.inl (show w.retryCount + 1 ≠ 0 by omega))]
      have hlt : w.retryCount < 6 := by
        unfold WebhookQueue.canRetry maxRetryAttempts at hcr
        rw [Bool.and_eq_true, decide_eq_true_eq] at hcr
        exact hcr.1
      exact ⟨by omega, by omega, by omega⟩
    · rw [processWebhook_failed_eq w err response s e now jitter hs
        (by revert hcr; cases w.canRetry <;> simp)]
      have hrc := (updateRetryAttempt_summary w w.retryCount s (some e)
        (Int.tdiv (e - s) 1000000)
        (match response with | some r => r.statusCode | none => 0)
        (match response with | some r => r.body | none => "")
        (deriveErrorMsg err response) now).2.1
      simp only [markFailedRow]
      rw [hrc]
      exact ⟨le_refl _, h6, h0⟩

/-- One queue operation never decreases `retry_count` and keeps it within
`[0, 6]`. -/
theorem applyOp_retryCount_step (w : WebhookQueue) (op : QueueOp)
    (h0 : 0 ≤ w.retryCount) (h6 : w.retryCount ≤ 6) :
    w.retryCount ≤ (applyOp w op).retryCount ∧
    (applyOp w op).retryCount ≤ 6 ∧ 0 ≤ (applyOp w op).retryCount := by
  cases op with
  | claim now => exact ⟨le_refl _, h6, h0⟩
  | recordAttempt lvl st c d h b e now =>
    have hrc := (updateRetryAttempt_summary w lvl st c d h b e now).2.1
    simp only [applyOp]
    rw [hrc]
    exact ⟨le_refl _, h6, h0⟩
  | processAttempt err resp s e now j =>
    exact processWebhook_retryCount_step w err resp s e now j h0 h6
  | complete p now => exact ⟨le_refl _, h6, h0⟩
  | fail e now => exact ⟨le_refl _, h6, h0⟩
  | reset now =>
    simp only [applyOp, resetWebhookToPending, mergeWebhookIntoModel_retryCount]
    split_ifs <;> exact ⟨le_refl _, h6, h0⟩

/-- Folding any operation sequence preserves the `retry_count` range and
never decreases it. -/
theorem applyOps_retryCount_fold (w : WebhookQueue) (ops : List QueueOp)
    (h0 : 0 ≤ w.retryCount) (h6 : w.retryCount ≤ 6) :
    w.retryCount ≤ (applyOps w ops).retryCount ∧
    (applyOps w ops).retryCount ≤ 6 ∧ 0 ≤ (applyOps w ops).retryCount := by
  induction ops generalizing w with
  | nil => exact ⟨le_refl _, h6, h0⟩
  | cons op rest ih =>
    obtain ⟨ha, hb, hc⟩ := applyOp_retryCount_step w op h0 h6
    obtain ⟨hd, hee, hf⟩ := ih (applyOp w op) hc hb
    exact ⟨le_trans ha hd, hee, hf⟩

/-- C5: over every sequence of queue-store and processor operations, a
row's `retry_count` stays within `[0, 6]`, and between any two observation
points (any prefix of the sequence versus the whole) it never decreases —
so no eighth attempt is ever scheduled. -/
theorem retryCount_invariant (w : WebhookQueue) (ops : List QueueOp)
    (h0 : 0 ≤ w.retryCount) (h6 : w.retryCount ≤ 6) :
    (0 ≤ (applyOps w ops).retryCount ∧ (applyOps w ops).retryCount ≤ 6) ∧
    (∀ pre suf, ops = pre ++ suf →
       (applyOps w pre).retryCount ≤ (applyOps w ops).retryCount) := by
  obtain ⟨hmono, hle, hge⟩ := applyOps_retryCount_fold w ops h0 h6
  refine ⟨⟨hge, hle⟩, ?_⟩
  intro pre suf hsplit
  subst hsplit
  obtain ⟨hp1, hp2, hp3⟩ := applyOps_retryCount_fold w pre h0 h6
  obtain ⟨hs1, hs2, hs3⟩ := applyOps_retryCount_fold (applyOps w pre) suf hp3 hp2
  have happ : applyOps w (pre ++ suf) = applyOps (applyOps w pre) suf := by
    simp [applyOps, List.foldl_append]
  rw [happ]
  exact hs1

/-- Witness for `retryCount_invariant`: a claim, a failed attempt and a
reset on the sample row keep `retry_count` in range. -/
theorem retryCount_invariant_witness :
    0 ≤ (applyOps sampleRow [QueueOp.claim 10,
        QueueOp.processAttempt (some "timeout") none 10 20 30 0,
        QueueOp.reset 40]).retryCount ∧
    (applyOps sampleRow [QueueOp.claim 10,
        QueueOp.processAttempt (some "timeout") none 10 20 30 0,
        QueueOp.reset 40]).retryCount ≤ 6 :=
  (retryCount_invariant sampleRow [QueueOp.claim 10,
      QueueOp.processAttempt (some "timeout") none 10 20 30 0,
      QueueOp.reset 40] (by decide) (by decide)).1
